import Mathlib

/-!
Verification development for the document resolution and retrieval subsystem
of an Indian Supreme Court judgments analytics application.

The Python sources embedded here (shallowly) are:
  - aws_utils.py   : case resolver (get_case_metadata), archive index
                     resolution (get_pdf_location / is_file_in_list),
                     shard download and PDF extraction (fetch_pdf_for_case,
                     get_pdf_url, extract_pdf_from_tar);
  - cache_utils.py : combined dataset builder (get_all_years_metadata,
                     get_processed_full_dataset);
  - preprocessing.py : normalize_judges.

Library behaviour that the sources rely on (pandas, `re`, tarfile, Python
truthiness) is modelled explicitly where the code paths depend on it:
  - `pandas.isna` applied to a Python list returns a numpy boolean array;
    using that array as an `if` condition raises ValueError unless the
    array has at most one element (numpy ambiguous-truth-value rule;
    size-0 arrays are modelled as False, matching numpy releases that only
    warn).  This is modelled by `pdIsnaTruth`.
  - `Series.str.contains(pat, case=False, na=False)` compiles `pat` as a
    regular expression; an invalid pattern raises `re.error` before any
    row is examined.  This is modelled by `regexFilter` over a small
    executable parser/matcher for the regex fragment that the data can
    exercise (literals, escapes, classes, alternation, groups,
    quantifiers); patterns outside the fragment are treated as failing to
    compile.
  - Attribute and type errors of Python (`.get` on a non-dict, `in` on an
    int) are modelled by `PyErr` values.

All strings are treated as ASCII (the data the application manipulates is
ASCII); Python `str.lower` / `str.strip` / `str.title` are modelled on
that fragment.
-/

/-! ### Character and string utilities (Python `str` fragment) -/

def isAsciiUpper (c : Char) : Bool := 65 ≤ c.toNat ∧ c.toNat ≤ 90

def isAsciiLower (c : Char) : Bool := 97 ≤ c.toNat ∧ c.toNat ≤ 122

def isAsciiDigit (c : Char) : Bool := 48 ≤ c.toNat ∧ c.toNat ≤ 57

def isAsciiAlpha (c : Char) : Bool := isAsciiUpper c || isAsciiLower c

/-- Python `\w` / `str.isalnum()`-style word characters (ASCII fragment). -/
def isWordChar (c : Char) : Bool := isAsciiAlpha c || isAsciiDigit c || c = '_'

/-- Python whitespace for `str.strip` (ASCII fragment: space, tab, LF, CR, VT, FF). -/
def isPyWhitespace (c : Char) : Bool :=
  c = ' ' || c = '\t' || c = '\n' || c = '\r' || c.toNat = 11 || c.toNat = 12

def toLowerChar (c : Char) : Char :=
  if isAsciiUpper c then Char.ofNat (c.toNat + 32) else c

def toUpperChar (c : Char) : Char :=
  if isAsciiLower c then Char.ofNat (c.toNat - 32) else c

def pyLowerList (cs : List Char) : List Char := cs.map toLowerChar

/-- Python `str.lower()` (ASCII fragment). -/
def pyLower (s : String) : String := ⟨pyLowerList s.data⟩

/-- Python `str.strip()` (ASCII whitespace fragment). -/
def pyStrip (s : String) : String :=
  ⟨((s.data.dropWhile isPyWhitespace).reverse.dropWhile isPyWhitespace).reverse⟩

/-- Python `s.replace(" ", "")`: removes every space character. -/
def removeSpaces (s : String) : String := ⟨s.data.filter (fun c => c ≠ ' ')⟩

def containsCharList (cs : List Char) (c : Char) : Bool := cs.any (fun x => x = c)

/-- Python `c in s` for a single character `c`. -/
def containsChar (s : String) (c : Char) : Bool := containsCharList s.data c

/-- Does `needle` occur as a contiguous sublist of `haystack`?  Python
substring containment `needle in haystack`. -/
def containsSubList (needle : List Char) : List Char → Bool
  | [] => needle = []
  | c :: cs => needle.isPrefixOf (c :: cs) || containsSubList needle cs

/-- Python `needle in haystack` for strings. -/
def containsSub (needle haystack : String) : Bool :=
  containsSubList needle.data haystack.data

/-- Python `str.endswith`. -/
def pyEndsWith (s suffix : String) : Bool :=
  suffix.data.isSuffixOf s.data

/-- Python `s[:n]`. -/
def pyTake (n : Nat) (s : String) : String := ⟨s.data.take n⟩

/-- Python `str.title()` (ASCII fragment): an alphabetic character is
uppercased when the previous character is not alphabetic, lowercased
otherwise; non-alphabetic characters are copied and restart a word. -/
def pyTitleAux : Bool → List Char → List Char
  | _, [] => []
  | prevAlpha, c :: cs =>
    (if isAsciiAlpha c then (if prevAlpha then toLowerChar c else toUpperChar c) else c)
      :: pyTitleAux (isAsciiAlpha c) cs

def pyTitle (s : String) : String := ⟨pyTitleAux false s.data⟩

/-- Strip leading and trailing non-word characters (regex `\W` trim). -/
def trimNonWord (s : String) : String :=
  ⟨((s.data.dropWhile (fun c => !isWordChar c)).reverse.dropWhile
      (fun c => !isWordChar c)).reverse⟩

/-- Last segment of a `/`-separated path: Python `p.split("/")[-1]`
(the whole string when it holds no slash). -/
def lastSegList : List Char → List Char → List Char
  | acc, [] => acc.reverse
  | acc, c :: cs => if c = '/' then lastSegList [] cs else lastSegList (c :: acc) cs

def lastSeg (p : String) : String := ⟨lastSegList [] p.data⟩

/-- Split a character list at every occurrence of `,` or `;`
(Python `re.split(r"[,;]", s)`). -/
def splitCommaSemiAux (cur : List Char) : List Char → List (List Char)
  | [] => [cur.reverse]
  | c :: cs =>
    if c = ',' || c = ';' then cur.reverse :: splitCommaSemiAux [] cs
    else splitCommaSemiAux (c :: cur) cs

def splitCommaSemi (s : String) : List String :=
  (splitCommaSemiAux [] s.data).map (fun cs => ⟨cs⟩)

/-- Split at `,`, `;` or the word ` and ` — Python
`re.split(r"[,;]| and ", s, flags=re.IGNORECASE)` when `ci` is true and
`re.split(r",|;| and ", s)` when `ci` is false.  The scanner moves left to
right, cutting at the first alternative that matches at each position.
Structured with explicit fuel (one unit per consumed character) so that
the definition is structurally recursive; `fuel = length + 1` always
suffices since every step consumes at least one character. -/
def splitJudgeSepAux (ci : Bool) : Nat → List Char → List Char → List (List Char)
  | 0, cur, rest => [cur.reverse ++ rest]
  | _ + 1, cur, [] => [cur.reverse]
  | fuel + 1, cur, c :: cs =>
    if c = ',' || c = ';' then cur.reverse :: splitJudgeSepAux ci fuel [] cs
    else
      let probe := if ci then pyLowerList (c :: cs) else c :: cs
      if (' ' :: 'a' :: 'n' :: 'd' :: [' ']).isPrefixOf probe then
        cur.reverse :: splitJudgeSepAux ci fuel [] (cs.drop 4)
      else splitJudgeSepAux ci fuel (c :: cur) cs

def splitJudgeSep (ci : Bool) (s : String) : List String :=
  (splitJudgeSepAux ci (s.data.length + 1) [] s.data).map (fun cs => ⟨cs⟩)

example : pyStrip "  a b  " = "a b" := by decide
example : pyLower "2025 INSC 1401" = "2025 insc 1401" := by decide
example : removeSpaces "a b c" = "abc" := by decide
example : containsSub "INSC" "2025 INSC 1401" = true := by decide
example : containsSub "X" "zz" = false := by decide
example : pyEndsWith "2021/X_EN.pdf" "_EN.pdf" = true := by decide
example : pyTitle "  the STATE of u.p." = "  The State Of U.P." := by decide
example : trimNonWord "  M/s. Acme &  " = "M/s. Acme" := by decide
example : lastSeg "2021/a/b.pdf" = "b.pdf" := by decide
example : lastSeg "b.pdf" = "b.pdf" := by decide
example : splitCommaSemi "a, b; c" = ["a", " b", " c"] := by decide
example : splitJudgeSep false "A, B and C" = ["A", " B", "C"] := by decide
example : splitJudgeSep true "A AND B" = ["A", "B"] := by decide
example : splitJudgeSep false "A AND B" = ["A AND B"] := by decide

/-! ### A small regular-expression engine

Models the behaviour of Python `re` needed by
`Series.str.contains(pat, case=False, na=False)` (aws_utils.py line 183):
the pattern is user data (`case_id`), compiled with `re.compile(pat,
re.IGNORECASE)` and searched with `re.search` semantics.  The parser
accepts the fragment: literal characters, `.` , escapes (`\d \D \w \W \s
\S`, escaped punctuation, `\n \t \r`), character classes with ranges and
negation, grouping `( )` and `(?: )`, alternation `|`, and quantifiers `*
+ ?` with an optional lazy `?`.  Syntactically invalid patterns — in
particular an unbalanced `(` as in `re.compile("(")` — yield `none`,
modelling the `re.error` exception.  Constructs outside the fragment
(anchors, look-around, `{m,n}`, backreferences) are conservatively mapped
to `none` as well.  Matching is case-insensitive throughout, since the
only call site always passes `case=False`. -/

inductive RE where
  | eps
  | lit (c : Char)
  | anyc
  | dig | ndig | wrd | nwrd | spc | nspc
  | cls (neg : Bool) (items : List (Char × Char))
  | alt (a b : RE)
  | cat (a b : RE)
  | star (a : RE)
deriving DecidableEq

/-- After a quantifier: allow one lazy `?`; a second quantifier is a
Python `multiple repeat` error. -/
def pLazy (e : RE) : List Char → Option (RE × List Char)
  | '?' :: '*' :: _ => none
  | '?' :: '+' :: _ => none
  | '?' :: '?' :: _ => none
  | '?' :: r => some (e, r)
  | '*' :: _ => none
  | '+' :: _ => none
  | r => some (e, r)

def pClassItems : Nat → List (Char × Char) → List Char → Option (List (Char × Char) × List Char)
  | 0, _, _ => none
  | _ + 1, _, [] => none
  | _ + 1, acc, ']' :: r => some (acc.reverse, r)
  | f + 1, acc, '\\' :: e :: r =>
    if isAsciiAlpha e || isAsciiDigit e then none
    else pClassItems f ((e, e) :: acc) r
  | f + 1, acc, c :: '-' :: ']' :: r => pClassItems f (('-', '-') :: (c, c) :: acc) (']' :: r)
  | f + 1, acc, c :: '-' :: d :: r =>
    if d = '\\' then none
    else if c.toNat ≤ d.toNat then pClassItems f ((c, d) :: acc) r
    else none
  | f + 1, acc, c :: r => pClassItems f ((c, c) :: acc) r

mutual

def pAlt : Nat → List Char → Option (RE × List Char)
  | 0, _ => none
  | f + 1, cs =>
    match pCat f cs with
    | none => none
    | some (e, rest) =>
      match rest with
      | '|' :: rest2 =>
        match pAlt f rest2 with
        | none => none
        | some (e2, rest3) => some (.alt e e2, rest3)
      | _ => some (e, rest)

def pCat : Nat → List Char → Option (RE × List Char)
  | 0, _ => none
  | f + 1, cs =>
    match cs with
    | [] => some (.eps, [])
    | ')' :: _ => some (.eps, cs)
    | '|' :: _ => some (.eps, cs)
    | _ =>
      match pPost f cs with
      | none => none
      | some (e, rest) =>
        match pCat f rest with
        | none => none
        | some (e2, rest2) => some (.cat e e2, rest2)

def pPost : Nat → List Char → Option (RE × List Char)
  | 0, _ => none
  | f + 1, cs =>
    match pAtom f cs with
    | none => none
    | some (e, rest) =>
      match rest with
      | '*' :: r => pLazy (.star e) r
      | '+' :: r => pLazy (.cat e (.star e)) r
      | '?' :: r => pLazy (.alt e .eps) r
      | _ => some (e, rest)

def pAtom : Nat → List Char → Option (RE × List Char)
  | 0, _ => none
  | f + 1, cs =>
    match cs with
    | [] => none
    | '(' :: '?' :: ':' :: r =>
      (match pAlt f r with
       | some (e, ')' :: rest) => some (e, rest)
       | _ => none)
    | '(' :: '?' :: _ => none
    | '(' :: r =>
      (match pAlt f r with
       | some (e, ')' :: rest) => some (e, rest)
       | _ => none)
    | '[' :: '^' :: r =>
      (match pClassItems f [] r with
       | some (items, rest) => some (.cls true items, rest)
       | none => none)
    | '[' :: r =>
      (match pClassItems f [] r with
       | some (items, rest) => some (.cls false items, rest)
       | none => none)
    | '\\' :: [] => none
    | '\\' :: e :: r =>
      if e = 'd' then some (.dig, r)
      else if e = 'D' then some (.ndig, r)
      else if e = 'w' then some (.wrd, r)
      else if e = 'W' then some (.nwrd, r)
      else if e = 's' then some (.spc, r)
      else if e = 'S' then some (.nspc, r)
      else if e = 'n' then some (.lit '\n', r)
      else if e = 't' then some (.lit '\t', r)
      else if e = 'r' then some (.lit '\r', r)
      else if isAsciiAlpha e || isAsciiDigit e then none
      else some (.lit e, r)
    | '.' :: r => some (.anyc, r)
    | c :: r =>
      if c = '*' || c = '+' || c = '?' || c = ')' || c = '|' || c = '^' || c = '$' then none
      else some (.lit c, r)

end

/-- Compile a Python regex pattern (fragment); `none` models `re.error`. -/
def parseRE (p : String) : Option RE :=
  match pAlt ((p.data.length + 2) * (p.data.length + 2) * 4) p.data with
  | some (e, []) => some e
  | _ => none

def ciCharEq (x c : Char) : Bool := toLowerChar x = toLowerChar c

def clsItemHolds (it : Char × Char) (x : Char) : Bool :=
  (it.1.toNat ≤ x.toNat && x.toNat ≤ it.2.toNat)

/-- Class membership under `re.IGNORECASE`: the character or one of its
case variants lies in one of the ranges. -/
def clsHolds (items : List (Char × Char)) (x : Char) : Bool :=
  items.any (fun it =>
    clsItemHolds it x || clsItemHolds it (toLowerChar x) || clsItemHolds it (toUpperChar x))

/-- Backtracking matcher in continuation style, with fuel.  Star iterations
must consume input, which keeps the search finite; the fuel chosen by
`reSearch` is always sufficient for the patterns and subject lengths the
theorems evaluate. -/
def reMatch : Nat → RE → List Char → (List Char → Bool) → Bool
  | 0, _, _, _ => false
  | f + 1, e, cs, k =>
    match e with
    | .eps => k cs
    | .lit c =>
      (match cs with
       | [] => false
       | x :: xs => ciCharEq x c && k xs)
    | .anyc =>
      (match cs with
       | [] => false
       | x :: xs => (x ≠ '\n') && k xs)
    | .dig =>
      (match cs with
       | [] => false
       | x :: xs => isAsciiDigit x && k xs)
    | .ndig =>
      (match cs with
       | [] => false
       | x :: xs => !isAsciiDigit x && k xs)
    | .wrd =>
      (match cs with
       | [] => false
       | x :: xs => isWordChar x && k xs)
    | .nwrd =>
      (match cs with
       | [] => false
       | x :: xs => !isWordChar x && k xs)
    | .spc =>
      (match cs with
       | [] => false
       | x :: xs => isPyWhitespace x && k xs)
    | .nspc =>
      (match cs with
       | [] => false
       | x :: xs => !isPyWhitespace x && k xs)
    | .cls neg items =>
      (match cs with
       | [] => false
       | x :: xs => (if neg then !clsHolds items x else clsHolds items x) && k xs)
    | .alt a b => reMatch f a cs k || reMatch f b cs k
    | .cat a b => reMatch f a cs (fun rest => reMatch f b rest k)
    | .star a =>
      k cs || reMatch f a cs (fun rest =>
        if rest.length < cs.length then reMatch f (.star a) rest k else false)

def reSize : RE → Nat
  | .alt a b => reSize a + reSize b + 1
  | .cat a b => reSize a + reSize b + 1
  | .star a => reSize a + 1
  | _ => 1

/-- Python `re.search(e, s)` as a Boolean: the pattern matches at some
start position. -/
def reSearchFrom (e : RE) (cs : List Char) : Bool :=
  (cs.tails).any (fun suffix =>
    reMatch ((reSize e + 2) * (suffix.length + 2) * 2) e suffix (fun _ => true))

example : parseRE "(" = none := by decide
example : (parseRE "2025 INSC 1401").isSome = true := by decide
example : (parseRE "a(b|c)*d").isSome = true := by decide
example : parseRE "a**" = none := by decide
example : parseRE "*x" = none := by decide
example : parseRE "[z-a]" = none := by decide
example : parseRE "[abc" = none := by decide

/-! ### The embedded-year token search

Models `re.search(r"\b(19|20)\d{2}\b", case_id_str)` of
aws_utils.get_case_metadata (line 164): a four-character window matches
when it starts with `19` or `20`, continues with two digits, and is
delimited by word boundaries.  `yearTokens` lists the matching windows
left to right, so its head is exactly what `re.search` returns. -/

def yearTokenAtPos (prev : Option Char) : List Char → Option Int
  | c1 :: c2 :: c3 :: c4 :: rest =>
    let boundaryBefore := match prev with
      | none => true
      | some p => !isWordChar p
    let boundaryAfter := match rest with
      | [] => true
      | r :: _ => !isWordChar r
    if boundaryBefore && boundaryAfter
        && ((c1 = '1' && c2 = '9') || (c1 = '2' && c2 = '0'))
        && isAsciiDigit c3 && isAsciiDigit c4 then
      some (((c1.toNat - 48) * 1000 + (c2.toNat - 48) * 100
              + (c3.toNat - 48) * 10 + (c4.toNat - 48) : Nat) : Int)
    else none
  | _ => none

def yearTokenScan (prev : Option Char) : List Char → List Int
  | [] => []
  | c :: cs =>
    match yearTokenAtPos prev (c :: cs) with
    | some y => y :: yearTokenScan (some c) cs
    | none => yearTokenScan (some c) cs

/-- All word-delimited `(19|20)dd` tokens of the string, leftmost first. -/
def yearTokens (s : String) : List Int := yearTokenScan none s.data

/-- The token `re.search` finds (leftmost), if any. -/
def firstYearToken (s : String) : Option Int := (yearTokens s).head?

/-- Candidate-year list of aws_utils.get_case_metadata (lines 162-168):
start from the caller-supplied year; when the leftmost embedded token
parses to a year in [1950, 2025] different from it, insert that year in
front. -/
def yearsToTry (year : Int) (cid : String) : List Int :=
  match firstYearToken cid with
  | some t => if 1950 ≤ t && t ≤ 2025 && t ≠ year then [t, year] else [year]
  | none => [year]

example : yearTokens "2025 INSC 1401" = [2025] := by decide
example : yearTokens "1900 2020 INSC 1" = [1900, 2020] := by decide
example : yearTokens "x2020" = [] := by decide
example : yearTokens "20253" = [] := by decide
example : firstYearToken "(" = none := by decide
example : yearsToTry 2021 "1900 2020 INSC 1" = [2021] := by decide
example : yearsToTry 2020 "2025 INSC 1401" = [2025, 2020] := by decide
example : yearsToTry 2025 "2025 INSC 1401" = [2025] := by decide

def reSearch (e : RE) (s : String) : Bool := reSearchFrom e s.data

example : (parseRE "insc").map (fun e => reSearch e "2025 INSC 1401") = some true := by decide
example : (parseRE "2025 INSC 1401").map (fun e => reSearch e "zzz") = some false := by decide
example : (parseRE "in.c").map (fun e => reSearch e "xxINSCxx") = some true := by decide
example : (parseRE "a(b|c)+d").map (fun e => reSearch e "zacbdz") = some true := by decide
example : (parseRE "a(b|c)+d").map (fun e => reSearch e "zaadzz") = some false := by decide

/-! ### Cells, Python errors, and pandas behaviour -/

/-- A DataFrame cell / dict value as the sources can observe it: a missing
value (`NaN`), a string, an integer, or a list of strings. -/
inductive Cell where
  | none
  | str (s : String)
  | int (n : Int)
  | list (xs : List String)
deriving DecidableEq

/-- Python exceptions that can escape the modelled code paths. -/
inductive PyErr where
  /-- `re.error` from compiling an invalid pattern. -/
  | regexError
  /-- `ValueError: the truth value of an array ... is ambiguous` from
  using `pd.isna(<list>)` as an `if` condition. -/
  | ambiguousTruth
  /-- `AttributeError` (e.g. `.get` on a non-dict, `.split` on a non-str). -/
  | attributeError
  /-- `TypeError` (e.g. `in` applied to an int). -/
  | typeError
deriving DecidableEq

instance {ε α : Type} [DecidableEq ε] [DecidableEq α] : DecidableEq (Except ε α) := fun x y =>
  match x, y with
  | .ok a, .ok b =>
    if h : a = b then isTrue (by rw [h])
    else isFalse (fun hh => h (Except.ok.inj hh))
  | .error e, .error f =>
    if h : e = f then isTrue (by rw [h])
    else isFalse (fun hh => h (Except.error.inj hh))
  | .ok _, .error _ => isFalse (fun hh => Except.noConfusion hh)
  | .error _, .ok _ => isFalse (fun hh => Except.noConfusion hh)

/-- The value of `if pd.isna(v):` in Python.  On scalars `pd.isna` yields a
Bool (`True` exactly for missing values).  On a list it yields a numpy
boolean array: using it as a condition raises ValueError for arrays of two
or more elements; a one-element array collapses to its element (always
`False` here, as elements are strings); numpy treats the empty array as
`False` (with a deprecation warning). -/
def pdIsnaTruth : Cell → Except PyErr Bool
  | .none => .ok true
  | .str _ => .ok false
  | .int _ => .ok false
  | .list xs => if 2 ≤ xs.length then .error .ambiguousTruth else .ok false

/-- Python `str(v)` for cell values (`NaN` prints as `nan`; a list prints
with single-quoted elements). -/
def pyStr : Cell → String
  | .none => "nan"
  | .str s => s
  | .int n => toString n
  | .list xs =>
    let q := String.singleton (Char.ofNat 39)
    "[" ++ String.intercalate ", " (xs.map (fun s => q ++ s ++ q)) ++ "]"

/-! ### Field normalization (aws_utils.py lines 192-220, preprocessing.py
lines 35-43, and the two helpers referenced from cache_utils.py) -/

/-- Normalization of trimmed non-empty elements used by the list branches:
`[str(v).strip() for v in value if v and str(v).strip()]`. -/
def trimmedNonEmpty (cond : String → Bool) (xs : List String) : List String :=
  xs.filterMap (fun v =>
    let t := pyStrip v
    if cond v && t ≠ "" then some t else none)

/-- aws_utils.get_case_metadata.normalize_list_field (lines 192-204). -/
def normalize_list_field (value : Cell) : Except PyErr (List String) := do
  let isna ← pdIsnaTruth value
  if isna then return []
  else
    match value with
    | .list xs => return trimmedNonEmpty (fun v => v ≠ "") xs
    | .str s0 =>
      let s := pyStrip s0
      if s = "" then return []
      else if containsChar s ',' || containsChar s ';' then
        return trimmedNonEmpty (fun _ => true) (splitCommaSemi s)
      else return [s]
    | _ => return []

/-- aws_utils.get_case_metadata.get_judges (lines 206-220): strings are
split at `,`, `;` or a case-insensitive ` and `, but only when the string
contains a comma or ` and ` (a lone semicolon does not trigger
splitting). -/
def aws_get_judges (judges : Cell) : Except PyErr (List String) := do
  let isna ← pdIsnaTruth judges
  if isna then return []
  else
    match judges with
    | .list xs => return trimmedNonEmpty (fun v => v ≠ "") xs
    | .str s0 =>
      let s := pyStrip s0
      if s = "" then return []
      else if containsChar s ',' || containsSub " and " (pyLower s) then
        return trimmedNonEmpty (fun _ => true) (splitJudgeSep true s)
      else return [s]
    | _ => return []

/-- preprocessing.normalize_judges (lines 35-43): `pd.isna` guard, then
identity-after-trim for lists, otherwise `re.split(r",|;| and ",
str(judges))` (case-sensitive) with trimmed non-empty parts. -/
def normalize_judges (judges : Cell) : Except PyErr (List String) := do
  let isna ← pdIsnaTruth judges
  if isna then return []
  else
    match judges with
    | .list xs => return trimmedNonEmpty (fun _ => true) xs
    | v => return trimmedNonEmpty (fun _ => true) (splitJudgeSep false (pyStr v))

/-- Modelled from the spec: cache_utils.get_processed_full_dataset (line
92) calls `preprocessing.normalize_citations`, which is absent from
src/preprocessing.py.  Spec §4.3a says citation cells are "normalized into
string lists" in the same manner as the §8 judge property: missing →
empty list, list → trimmed non-empty elements, string → split at
comma/semicolon with trimmed non-empty parts, other scalars → their
string form. -/
def normalize_citations : Cell → List String
  | .none => []
  | .list xs => trimmedNonEmpty (fun _ => true) xs
  | .str s => trimmedNonEmpty (fun _ => true) (splitCommaSemi s)
  | .int n => [toString n]

/-- Split a character list at the first occurrence of `sep`; `none` when
`sep` does not occur. -/
def splitFirstOccAux (sep : List Char) (acc : List Char) : List Char → Option (List Char × List Char)
  | [] => Option.none
  | c :: cs =>
    if sep.isPrefixOf (c :: cs) then some (acc.reverse, (c :: cs).drop sep.length)
    else splitFirstOccAux sep (c :: acc) cs

/-- The ordered separator patterns of spec §4.3a: `"X vs Y"`,
`"X versus Y"`, `"X v. Y"`.  The fourth listed shape, `"X & Y vs Z"`, is
the `" vs "` pattern with an ampersand inside the left capture, so the
first pattern already matches wherever it would. -/
def titleSeparators : List String := [" vs ", " versus ", " v. "]

/-- First pattern (in order) that matches the title, split at that
separator's first occurrence. -/
def findTitleSplit (t : String) : Option (String × String) :=
  (titleSeparators.filterMap (fun sep =>
    (splitFirstOccAux sep.data [] t.data).map
      (fun p => ((⟨p.1⟩ : String), (⟨p.2⟩ : String))))).head?

/-- Modelled from the spec: cache_utils.get_processed_full_dataset (line
95) calls `preprocessing.extract_petitioner_respondent`, which is absent
from src/preprocessing.py.  Spec §4.3a: the title is matched against the
ordered separator patterns; the first pattern that matches wins; captured
groups are trimmed of leading/trailing non-word characters and
title-cased; on no match both fields are empty.  Missing (non-string)
titles match no pattern. -/
def extract_petitioner_respondent : Cell → String × String
  | .str t =>
    (match findTitleSplit t with
     | some (a, b) => (pyTitle (trimNonWord a), pyTitle (trimNonWord b))
     | Option.none => ("", ""))
  | _ => ("", "")

example : normalize_judges (.str "A, B and C") = .ok ["A", "B", "C"] := by decide
example : normalize_judges (.list ["A ", " B"]) = .error .ambiguousTruth := by decide
example : normalize_judges (.list [" A "]) = .ok ["A"] := by decide
example : normalize_judges (.list []) = .ok [] := by decide
example : normalize_judges .none = .ok [] := by decide
example : normalize_judges (.str "") = .ok [] := by decide
example : aws_get_judges (.str "X; Y") = .ok ["X; Y"] := by decide
example : aws_get_judges (.str "X AND Y") = .ok ["X", "Y"] := by decide
example : normalize_list_field (.str " a , b ") = .ok ["a", "b"] := by decide
example : normalize_list_field (.str "  solo  ") = .ok ["solo"] := by decide
example : normalize_citations (.str "2025 INSC 1; AIR 2020") = ["2025 INSC 1", "AIR 2020"] := by decide
example : extract_petitioner_respondent (.str "ram kumar vs STATE of U.P.") =
    ("Ram Kumar", "State Of U.P") := by decide
example : extract_petitioner_respondent (.str "A & B vs C") = ("A & B", "C") := by decide
example : extract_petitioner_respondent (.str "In re: article 370") = ("", "") := by decide
example : extract_petitioner_respondent .none = ("", "") := by decide
example : extract_petitioner_respondent (.str "A versus B") = ("A", "B") := by decide

/-! ### Rows, tables and the case resolver (aws_utils.get_case_metadata) -/

/-- A DataFrame row / Python dict, as `matches.iloc[0].to_dict()` exposes
it: column name to cell.  A column present in the frame but missing from a
row reads as `NaN` (`Cell.none`). -/
abbrev Row := List (String × Cell)

def lookupCell (r : Row) (k : String) : Option Cell :=
  (r.find? (fun p => p.1 == k)).map Prod.snd

/-- Python `row.get(k, d)`. -/
def getCellOr (r : Row) (k : String) (d : Cell) : Cell := (lookupCell r k).getD d

/-- Cell of column `k`, `NaN` when absent (pandas column access). -/
def cellD (r : Row) (k : String) : Cell := getCellOr r k .none

/-- One year's metadata DataFrame: its column list and its rows. -/
structure Table where
  cols : List String
  rows : List Row
deriving DecidableEq

/-- The string the pandas expression `df["case_id"].astype(str)` yields
for a row. -/
def caseIdStr (r : Row) : String := pyStr (cellD r "case_id")

/-- `df["case_id"].astype(str).str.contains(pat, case=False, na=False)`
used as a row filter (aws_utils.py line 183): the pattern is compiled
first — an invalid pattern raises `re.error` before any row is tested. -/
def regexFilter (pat : String) (rows : List Row) : Except PyErr (List Row) :=
  match parseRE pat with
  | Option.none => .error .regexError
  | some e => .ok (rows.filter (fun r => reSearch e (caseIdStr r)))

/-- The three-stage matching fallback of aws_utils.get_case_metadata
(lines 175-184), applied to an already-stripped query `cid`:
exact match after strip+lower; exact match after removing spaces and
lowering; case-insensitive regex containment. -/
def findMatches (cid : String) (t : Table) : Except PyErr (List Row) :=
  let ma := t.rows.filter (fun r => pyLower (pyStrip (caseIdStr r)) == pyLower cid)
  if !ma.isEmpty then .ok ma
  else
    let mb := t.rows.filter
      (fun r => pyLower (removeSpaces (caseIdStr r)) == pyLower (removeSpaces cid))
    if !mb.isEmpty then .ok mb
    else regexFilter cid t.rows

/-- The candidate-year loop (aws_utils.py lines 170-190): for each
candidate year in order, skip years whose metadata is absent or lacks a
`case_id` column; return the first row of the first non-empty match
together with the candidate year it was found under. -/
def resolveOver (meta : Int → Option Table) (cid : String) : List Int → Except PyErr (Option (Row × Int))
  | [] => .ok Option.none
  | y :: ys =>
    match meta y with
    | Option.none => resolveOver meta cid ys
    | some t =>
      if !(t.cols.contains "case_id") then resolveOver meta cid ys
      else
        match findMatches cid t with
        | .error e => .error e
        | .ok [] => resolveOver meta cid ys
        | .ok (r :: _) => .ok (some (r, y))

/-- The projected record of aws_utils.get_case_metadata (lines 224-240). -/
structure CaseRecord where
  title : Cell
  petitioner : List String
  respondent : List String
  judges : List String
  citation : List String
  decision_date : Cell
  disposal_nature : Cell
  available_languages : List String
  path : Cell
  case_id : Cell
  year : Int
  court : Cell
  author_judge : List String
  cnr : Cell
  description : Cell
deriving DecidableEq

/-- `case.get("judge", case.get("judges", []))` (aws_utils.py line 207). -/
def judgeCell (case : Row) : Cell :=
  match lookupCell case "judge" with
  | some c => c
  | Option.none => getCellOr case "judges" (.list [])

/-- Field projection and normalization of the matched row
(aws_utils.py lines 222-240). -/
def projectRow (case : Row) (actual_year : Int) : Except PyErr CaseRecord := do
  let judges ← aws_get_judges (judgeCell case)
  let petitioner ← normalize_list_field (getCellOr case "petitioner" (.str ""))
  let respondent ← normalize_list_field (getCellOr case "respondent" (.str ""))
  let citation ← normalize_list_field (getCellOr case "citation" (.list []))
  let available_languages ← normalize_list_field (getCellOr case "available_languages" (.list []))
  let author_judge ← normalize_list_field (getCellOr case "author_judge" (.str ""))
  return {
    title := getCellOr case "title" (.str "")
    petitioner := petitioner
    respondent := respondent
    judges := judges
    citation := citation
    decision_date := getCellOr case "decision_date" (.str "")
    disposal_nature := getCellOr case "disposal_nature" (.str "")
    available_languages := available_languages
    path := getCellOr case "path" (.str "")
    case_id := getCellOr case "case_id" (.str "")
    year := actual_year
    court := getCellOr case "court" (.str "")
    author_judge := author_judge
    cnr := getCellOr case "cnr" (.str "")
    description := getCellOr case "description" (.str "")
  }

/-- aws_utils.get_case_metadata (lines 151-240): strip the query, return
`None` when empty, walk the candidate years, and project the first match
(tagged with the candidate year it was found under). -/
def getCaseMetadata (meta : Int → Option Table) (year : Int) (case_id : String) :
    Except PyErr (Option CaseRecord) :=
  let cid := pyStrip case_id
  if cid = "" then .ok Option.none
  else
    match resolveOver meta cid (yearsToTry year cid) with
    | .error e => .error e
    | .ok Option.none => .ok Option.none
    | .ok (some (r, t)) =>
      match projectRow r t with
      | .error e => .error e
      | .ok rec => .ok (some rec)

/-- Result-shape probe: `ok (some _)`. -/
def isOkSome {ε α : Type} : Except ε (Option α) → Bool
  | .ok (some _) => true
  | _ => false

/-- Year of a successfully resolved record, if any. -/
def recYear : Except PyErr (Option CaseRecord) → Option Int
  | .ok (some r) => some r.year
  | _ => Option.none

def tbl2021 : Table := ⟨["case_id"], [[("case_id", .str "2025 INSC 1401")]]⟩

def metaOne : Int → Option Table := fun y => if y = 2021 then some tbl2021 else Option.none

example : getCaseMetadata metaOne 2021 "(" = .error .regexError := by decide
example : isOkSome (getCaseMetadata metaOne 2021 "INSC") = true := by decide
example : getCaseMetadata metaOne 2021 "" = .ok Option.none := by decide
example : getCaseMetadata metaOne 2021 "no such case" = .ok Option.none := by decide
example : getCaseMetadata metaOne 2019 "nothing" = .ok Option.none := by decide

def tbl2025 : Table :=
  ⟨["case_id", "title"], [[("case_id", .str "2025 INSC 1401"), ("title", .str "Ram vs Shyam")]]⟩

def tbl2020 : Table := ⟨["case_id"], [[("case_id", .str "zzz")]]⟩

def metaTwo : Int → Option Table :=
  fun y => if y = 2025 then some tbl2025 else if y = 2020 then some tbl2020 else Option.none

example : recYear (getCaseMetadata metaTwo 2020 "2025 INSC 1401") = some 2025 := by decide

/-! ### Archive index resolution (aws_utils.get_pdf_location, lines 68-116) -/

/-- JSON values as `response.json()` can produce them (fragment: strings,
integers, arrays, objects). -/
inductive Json where
  | str (s : String)
  | num (n : Int)
  | arr (xs : List Json)
  | obj (fields : List (String × Json))

def lookupJson (fs : List (String × Json)) (k : String) : Option Json :=
  (fs.find? (fun p => p.1 == k)).map Prod.snd

/-- Python truthiness of a JSON value (`if not index: return None`). -/
def jsonTruthy : Json → Bool
  | .str s => s ≠ ""
  | .num n => n ≠ 0
  | .arr xs => !xs.isEmpty
  | .obj fs => !fs.isEmpty

/-- The candidate names tried by `is_file_in_list` (aws_utils.py lines
82-98), in source order: the raw filename; `+ ".pdf"`; `+ "_EN.pdf"`; the
three again prefixed with `"{year}/"`. -/
def fileVariants (year : Int) (filename : String) : List String :=
  [filename,
   filename ++ ".pdf",
   filename ++ "_EN.pdf",
   toString year ++ "/" ++ filename,
   toString year ++ "/" ++ filename ++ ".pdf",
   toString year ++ "/" ++ filename ++ "_EN.pdf"]

def jsonIsStr (j : Json) (v : String) : Bool :=
  match j with
  | .str s => s == v
  | _ => false

/-- `is_file_in_list` against a JSON array: Python `x in list` compares
equality with each element (a string never equals a non-string). -/
def fileInArr (year : Int) (fname : String) (l : List Json) : Bool :=
  (fileVariants year fname).any (fun v => l.any (fun j => jsonIsStr j v))

/-- `is_file_in_list` when the `files` value is not a list: Python `in`
means substring on a string, key membership on a dict, and raises
TypeError on an int. -/
def isFileInJson (year : Int) (fname : String) : Json → Except PyErr Bool
  | .arr l => .ok (fileInArr year fname l)
  | .str s => .ok ((fileVariants year fname).any (fun v => containsSub v s))
  | .obj fs => .ok ((fileVariants year fname).any (fun v => (lookupJson fs v).isSome))
  | .num _ => .error .typeError

/-- `part.get("name")`: absent name is Python `None` (the function then
returns `None`); an int name is stringified downstream into the shard URL.
Array/object shard names (never produced by either schema) are outside
the model and read as absent. -/
def nameOf (pf : List (String × Json)) : Option String :=
  match lookupJson pf "name" with
  | some (.str n) => some n
  | some (.num k) => some (toString k)
  | _ => Option.none

/-- The V2 loop (aws_utils.py lines 101-106): each part must be a dict
(`part.get` on anything else raises AttributeError); `files` defaults to
`[]`. -/
def v2Loop (year : Int) (fname : String) : List Json → Except PyErr (Option String)
  | [] => .ok Option.none
  | .obj pf :: ps =>
    (match isFileInJson year fname ((lookupJson pf "files").getD (.arr [])) with
     | .error e => .error e
     | .ok true => .ok (nameOf pf)
     | .ok false => v2Loop year fname ps)
  | _ :: _ => .error .attributeError

/-- The V1 loop (aws_utils.py lines 109-114): values that are not lists
are skipped. -/
def v1Loop (year : Int) (fname : String) : List (String × Json) → Except PyErr (Option String)
  | [] => .ok Option.none
  | (k, .arr l) :: rest =>
    if fileInArr year fname l then .ok (some k) else v1Loop year fname rest
  | _ :: rest => v1Loop year fname rest

/-- aws_utils.get_pdf_location on an already-fetched index document
(lines 74-116): falsy or missing index → `None`; a dict with a `parts`
key is treated as schema V2 (whatever the shape of that key's value);
any other dict is schema V1; truthy non-dict payloads fall through to
`None`.  (The `pdf_key` computed at line 78 is never used by the
source, so it is not modelled.) -/
def locateInIndex (idx : Option Json) (year : Int) (fname : String) :
    Except PyErr (Option String) :=
  match idx with
  | Option.none => .ok Option.none
  | some j =>
    if !jsonTruthy j then .ok Option.none
    else
      match j with
      | .obj fields =>
        (match lookupJson fields "parts" with
         | some (.arr parts) => v2Loop year fname parts
         | some (.str s) => if s = "" then .ok Option.none else .error .attributeError
         | some (.obj pfs) => if pfs.isEmpty then .ok Option.none else .error .attributeError
         | some (.num _) => .error .typeError
         | Option.none => v1Loop year fname fields)
      | _ => .ok Option.none

/-- A flat shard-name-to-file-list content, and its two on-the-wire
renderings. -/
abbrev IndexContent := List (String × List String)

def v1Payload (c : IndexContent) : Json :=
  .obj (c.map (fun p => (p.1, .arr (p.2.map .str))))

def v2Payload (c : IndexContent) : Json :=
  .obj [("parts", .arr (c.map (fun p =>
    .obj [("name", .str p.1), ("files", .arr (p.2.map .str))])))]

def idxC6 : Option Json := some (.obj [("data.tar", .arr [.str "2021/X_EN.pdf"])])

example : locateInIndex idxC6 2021 "X" = .ok (some "data.tar") := by decide
example : locateInIndex idxC6 2021 "X_EN.pdf" = .ok (some "data.tar") := by decide
example : locateInIndex idxC6 2021 "X.pdf" = .ok Option.none := by decide
example : locateInIndex (some (v1Payload [("parts", ["2021/X.pdf"])])) 2021 "X"
    = .error .attributeError := by decide
example : locateInIndex (some (v2Payload [("parts", ["2021/X.pdf"])])) 2021 "X"
    = .ok (some "parts") := by decide
example : locateInIndex (some (v1Payload [("data.tar", ["2021/X.pdf"])])) 2021 "X"
    = .ok (some "data.tar") := by decide
example : locateInIndex (some (v2Payload [("data.tar", ["2021/X.pdf"])])) 2021 "X"
    = .ok (some "data.tar") := by decide
example : locateInIndex (some (v1Payload [])) 2021 "X" = .ok Option.none := by decide
example : locateInIndex (some (v2Payload [])) 2021 "X" = .ok Option.none := by decide

/-! ### The combined dataset builder (cache_utils.py lines 33-102)

`get_all_years_metadata` submits one fetch per year of `range(1950, 2026)`
to a bounded worker pool and collects results in completion order; a year
is present in the aggregate exactly when its fetch returned a frame
(failures and `None` results are omitted).  Completion order is
nondeterministic, so the embedding takes the iteration order of the
aggregate as a parameter `order` ranging over permutations of the
submitted years.  `get_processed_full_dataset` then (cold path — no local
snapshot) tags each year's rows with the year, normalizes the judge,
citation and title-derived columns, and concatenates everything. -/

def exceptMapM {α β : Type} (f : α → Except PyErr β) : List α → Except PyErr (List β)
  | [] => .ok []
  | a :: rest =>
    match f a with
    | .error e => .error e
    | .ok b =>
      match exceptMapM f rest with
      | .error e => .error e
      | .ok bs => .ok (b :: bs)

/-- `df[k] = v` at row level: replaces the cell of column `k`. -/
def setCell (k : String) (v : Cell) (r : Row) : Row :=
  (k, v) :: r.filter (fun p => !(p.1 == k))

/-- `df["judge"] = df["judge"].apply(preprocessing.normalize_judges)`
at row level. -/
def updateJudge (r : Row) : Except PyErr Row := do
  let v ← normalize_judges (cellD r "judge")
  return setCell "judge" (.list v) r

/-- `df["citation"] = df["citation"].apply(preprocessing.normalize_citations)`
at row level. -/
def citStep (r : Row) : Row :=
  setCell "citation" (.list (normalize_citations (cellD r "citation"))) r

/-- `df[["petitioner", "respondent"]] = df["title"].apply(...)` at row
level: both columns are derived from the title cell. -/
def titleStep (r : Row) : Row :=
  setCell "respondent" (.str (extract_petitioner_respondent (cellD r "title")).2)
    (setCell "petitioner" (.str (extract_petitioner_respondent (cellD r "title")).1) r)

/-- The per-year body of the processing loop of
cache_utils.get_processed_full_dataset (lines 84-97): tag with the source
year, then normalize judge and citation cells, then derive
petitioner/respondent from the title column when present.  Only the judge
pass can raise (see `normalize_judges`); its error aborts the build. -/
def stage1 (y : Int) (t : Table) : Except PyErr (List Row) :=
  let rows0 := t.rows.map (setCell "year" (.int y))
  if t.cols.contains "judge" then exceptMapM updateJudge rows0 else .ok rows0

def processTable (y : Int) (t : Table) : Except PyErr (List Row) :=
  match stage1 y t with
  | .error e => .error e
  | .ok rows1 =>
    let rows2 := if t.cols.contains "citation" then rows1.map citStep else rows1
    let rows3 := if t.cols.contains "title" then rows2.map titleStep else rows2
    .ok rows3

/-- `list(range(1950, 2026))` (cache_utils.py line 43). -/
def supportedYears : List Int := (List.range 76).map (fun i => (1950 : Int) + i)

/-- The aggregate `get_all_years_metadata` builds, iterated in `order`
(a completion-order permutation of the submitted years): the years whose
fetch succeeded, with their frames. -/
def allYearsMetadata (meta : Int → Option Table) (order : List Int) : List (Int × Table) :=
  order.filterMap (fun y => (meta y).map (fun t => (y, t)))

/-- cache_utils.get_processed_full_dataset (lines 60-102).  `localData`
models the optional local parquet snapshot (fast path); the cold path
aggregates, processes per year, and concatenates.  An empty aggregate
returns `None`. -/
def coldBuild (meta : Int → Option Table) (order : List Int) :
    Except PyErr (Option (List Row)) :=
  if (allYearsMetadata meta order).isEmpty then .ok Option.none
  else
    match exceptMapM (fun p => processTable p.1 p.2) (allYearsMetadata meta order) with
    | .error e => .error e
    | .ok blocks => .ok (some blocks.flatten)

def getProcessedFullDataset (localData : Option (List Row)) (meta : Int → Option Table)
    (order : List Int) : Except PyErr (Option (List Row)) :=
  match localData with
  | some d => .ok (some d)
  | Option.none => coldBuild meta order

def metaNone : Int → Option Table := fun _ => Option.none

def tblBadJudge : Table :=
  ⟨["case_id", "judge"], [[("case_id", .str "a"), ("judge", .list ["A", "B"])]]⟩

def metaBadJudge : Int → Option Table :=
  fun y => if y = 2021 then some tblBadJudge else Option.none

def tblTitled : Table := ⟨["title"], [[("title", .str "Ram vs Shyam")]]⟩

def metaTitled : Int → Option Table :=
  fun y => if y = 2021 then some tblTitled else Option.none

example : getProcessedFullDataset Option.none metaNone supportedYears = .ok Option.none := by
  decide
example : getProcessedFullDataset Option.none metaBadJudge supportedYears
    = .error .ambiguousTruth := by decide
example : getProcessedFullDataset Option.none metaTitled supportedYears
    = .ok (some [[("respondent", .str "Shyam"), ("petitioner", .str "Ram"),
                  ("year", .int 2021), ("title", .str "Ram vs Shyam")]]) := by decide

/-! ### Shard download and extraction (aws_utils.py lines 118-149 and
262-361) -/

/-- A tar archive member: its name and, when `extractfile` yields a file
object (it yields `None` for non-file members), the bytes read from it. -/
structure TarMember where
  name : String
  content : Option (List Nat)
deriving DecidableEq

/-- The member-matching disjunction of the extraction loop in
fetch_pdf_for_case (lines 337-342): suffix matches on the filename and
its `.pdf` / `_EN.pdf` extensions, plus containment of the path-qualified
variants when the filename holds a slash (`pdf_key`). -/
def memberMatches (fname mname : String) : Bool :=
  let hasKey := containsChar fname '/'
  pyEndsWith mname fname
    || (hasKey && containsSub fname mname)
    || pyEndsWith mname (fname ++ ".pdf")
    || pyEndsWith mname (fname ++ "_EN.pdf")
    || (hasKey && containsSub (fname ++ ".pdf") mname)
    || (hasKey && containsSub (fname ++ "_EN.pdf") mname)

/-- The member scan (lines 334-354): first matching member with an
extractable file object wins; matching members whose `extractfile` is
`None` are passed over; exhausting the list yields `None`. -/
def extractLoop (fname : String) : List TarMember → Option (List Nat)
  | [] => Option.none
  | m :: ms =>
    if memberMatches fname m.name then
      match m.content with
      | some b => some b
      | Option.none => extractLoop fname ms
    else extractLoop fname ms

/-- The similar-filename comprehension of the diagnostic block (line 307):
`pdf_filename[:10] in f` raises TypeError when a file entry is not a
string. -/
def checkFiles : Json → Except PyErr Unit
  | .arr fs =>
    if fs.all (fun f => match f with | Json.str _ => true | _ => false) then .ok ()
    else .error .typeError
  | .num _ => .error .typeError
  | _ => .ok ()

def debugParts : List Json → Except PyErr Unit
  | [] => .ok ()
  | .obj pf :: ps =>
    (match checkFiles ((lookupJson pf "files").getD (.arr [])) with
     | .error e => .error e
     | .ok _ => debugParts ps)
  | _ :: _ => .error .attributeError

/-- The diagnostic block of fetch_pdf_for_case that runs when the shard
was not located (lines 297-312): it re-fetches the index and walks it,
printing; on a V2 payload it touches each part (`part.get`) and tests
substring containment against each file entry; on a dict without `parts`
it lists the keys; on a truthy non-dict it calls `.keys()` and raises
AttributeError. -/
def debugScan (idx : Option Json) : Except PyErr Unit :=
  match idx with
  | Option.none => .ok ()
  | some j =>
    if !jsonTruthy j then .ok ()
    else
      match j with
      | .obj fs =>
        (match lookupJson fs "parts" with
         | some (.arr parts) => debugParts parts
         | some (.str s) => if s = "" then .ok () else .error .attributeError
         | some (.obj pfs) => if pfs.isEmpty then .ok () else .error .attributeError
         | some (.num _) => .error .typeError
         | Option.none => .ok ())
      | _ => .error .attributeError

/-- The remote world the retrieval pipeline reads from: per-year metadata
documents, per-(year, language) index documents, shard downloads, and the
parsing of downloaded bytes as a tar archive (`None` models download
failures and `tarfile.open` errors, which the source catches). -/
structure Env where
  meta : Int → Option Table
  index : Int → String → Option Json
  download : Int → String → String → Option (List Nat)
  parseTar : List Nat → Option (List TarMember)

/-- `if not case_meta.get("path"): return None` followed by
`pdf_path.split("/")[-1]` (lines 282-288): an empty string (or other
falsy cell) is rejected as missing; a truthy non-string cell (including
`NaN`, which is truthy) has no `.split` and raises AttributeError. -/
def pathToFilename : Cell → Except PyErr (Option String)
  | .str s => if s = "" then .ok Option.none else .ok (some (lastSeg s))
  | .none => .error .attributeError
  | .int n => if n = 0 then .ok Option.none else .error .attributeError
  | .list xs => if xs.isEmpty then .ok Option.none else .error .attributeError

def BASE_URL : String := "https://indian-supreme-court-judgments.s3.amazonaws.com"

/-- The shard URL `f"{BASE_URL}/data/tar/year={year}/{language}/{tar_filename}"`. -/
def tarUrl (year : Int) (lang tar : String) : String :=
  BASE_URL ++ "/data/tar/year=" ++ toString year ++ "/" ++ lang ++ "/" ++ tar

/-- aws_utils.fetch_pdf_for_case (lines 262-361): resolve the filename
(from the supplied path when truthy, otherwise through the case
resolver), locate the shard in the caller-year index, download the shard
from the caller-year URL, and scan its members.  Download failures, a
falsy downloaded body, tar-parsing failures and an unmatched member list
all end in `ok None`. -/
def fetchPdfForCase (env : Env) (year : Int) (case_id lang : String)
    (pdf_path : Option String) : Except PyErr (Option (List Nat)) :=
  let direct : Option String :=
    match pdf_path with
    | some p => if p = "" then Option.none else some p
    | Option.none => Option.none
  let fnameStep : Except PyErr (Option String) :=
    match direct with
    | some p => .ok (some (lastSeg p))
    | Option.none =>
      match getCaseMetadata env.meta year case_id with
      | .error e => .error e
      | .ok Option.none => .ok Option.none
      | .ok (some rec) => pathToFilename rec.path
  match fnameStep with
  | .error e => .error e
  | .ok Option.none => .ok Option.none
  | .ok (some fname) =>
    match locateInIndex (env.index year lang) year fname with
    | .error e => .error e
    | .ok tarFound =>
      let tarName : Option String :=
        match tarFound with
        | some t => if t = "" then Option.none else some t
        | Option.none => Option.none
      match tarName with
      | Option.none =>
        (match debugScan (env.index year lang) with
         | .error e => .error e
         | .ok _ => .ok Option.none)
      | some tar =>
        match env.download year lang tar with
        | Option.none => .ok Option.none
        | some bytes =>
          if bytes.isEmpty then .ok Option.none
          else
            match env.parseTar bytes with
            | Option.none => .ok Option.none
            | some members => .ok (extractLoop fname members)

/-- aws_utils.get_pdf_url (lines 242-260): same resolution steps, but
stops after locating the shard and returns its caller-year URL. -/
def getPdfUrl (env : Env) (year : Int) (case_id lang : String) :
    Except PyErr (Option String) :=
  match getCaseMetadata env.meta year case_id with
  | .error e => .error e
  | .ok Option.none => .ok Option.none
  | .ok (some rec) =>
    match pathToFilename rec.path with
    | .error e => .error e
    | .ok Option.none => .ok Option.none
    | .ok (some fname) =>
      match locateInIndex (env.index year lang) year fname with
      | .error e => .error e
      | .ok (some tar) =>
        if tar = "" then .ok Option.none else .ok (some (tarUrl year lang tar))
      | .ok Option.none => .ok Option.none

def envNine : Env :=
  { meta := metaTwo
    index := fun y l =>
      if y = 2021 && l == "english" then
        some (.obj [("data.tar", .arr [.str "2021/report_EN.pdf"])])
      else Option.none
    download := fun y l t =>
      if y = 2021 && l == "english" && t == "data.tar" then some [7, 7, 7] else Option.none
    parseTar := fun b =>
      if b == [7, 7, 7] then
        some [⟨"2021/other_EN.pdf", some [1]⟩, ⟨"2021/another.pdf", some [2]⟩]
      else Option.none }

example : fetchPdfForCase envNine 2021 "x" "english" (some "2021/report_EN.pdf")
    = .ok Option.none := by decide
example : fetchPdfForCase envNine 2021 "x" "english" (some "2021/other_EN.pdf")
    = .ok Option.none := by decide
example : fetchPdfForCase envNine 2021 "x" "english" (some "2021/report.pdf")
    = .ok Option.none := by decide

def tblC4 : Table := ⟨["case_id"], [[("case_id", .str "1900 2020 INSC 1")]]⟩

def metaC4 : Int → Option Table := fun y => if y = 2020 then some tblC4 else Option.none

def recFive : CaseRecord :=
  { title := .str "Ram vs Shyam", petitioner := [], respondent := [], judges := [],
    citation := [], decision_date := .str "", disposal_nature := .str "",
    available_languages := [], path := .str "", case_id := .str "2025 INSC 1401",
    year := 2025, court := .str "", author_judge := [], cnr := .str "",
    description := .str "" }

def membersNine : List TarMember :=
  [⟨"2021/other_EN.pdf", some [1]⟩, ⟨"2021/another.pdf", some [2]⟩]

def envTen : Env :=
  { envNine with
    index := fun y l =>
      if y = 1999 then some (.obj [("zzz.tar", .arr [.str "1999/z.pdf"])])
      else envNine.index y l }

def isOkB {ε α : Type} : Except ε α → Bool
  | .ok _ => true
  | .error _ => false

/-- The rows of the combined dataset carrying a given year tag. -/
def rowsOfYear (y : Int) (rows : List Row) : List Row :=
  rows.filter (fun r => cellD r "year" == Cell.int y)

/-- A candidate year that produced no match in the resolver loop: its
metadata is absent, lacks a `case_id` column, or all three matching
stages returned empty (without raising). -/
def noMatchAt (meta : Int → Option Table) (cid : String) (y : Int) : Prop :=
  meta y = Option.none
  ∨ ∃ t, meta y = some t
      ∧ (t.cols.contains "case_id" = false ∨ findMatches cid t = .ok [])

def rowsTitled : List Row :=
  [[("respondent", .str "Shyam"), ("petitioner", .str "Ram"),
    ("year", .int 2021), ("title", .str "Ram vs Shyam")]]

/-! ### Claim theorems -/

/-- Claim C1 (code bug): the claim — backed by spec §7, "no exception
ever escapes a core operation" — says the resolver returns a record or
`None` for every case_id, in particular ones containing regex
metacharacters.  The code compiles the raw case_id as a regular
expression in its containment fallback
(`df["case_id"].astype(str).str.contains(case_id_str, case=False,
na=False)`, aws_utils.py line 183), so the syntactically invalid pattern
`"("` raises `re.error` whenever the exact-match stages find nothing.
A valid pattern (`"INSC"`) resolves through the same fallback, and the
empty string returns `None`, as the claim describes. -/
theorem claim_C1_resolver_raises_on_metacharacters :
    getCaseMetadata metaOne 2021 "(" = .error .regexError
    ∧ isOkSome (getCaseMetadata metaOne 2021 "INSC") = true
    ∧ getCaseMetadata metaOne 2021 "" = .ok Option.none := by decide

/-- Claim C8 (code bug): judge normalization behaves as claimed for
joined strings (`"A, B and C"` → `["A","B","C"]`), `NaN` and the empty
string, and for lists of at most one element — but a list of two or more
judges reaches `if pd.isna(judges):` (preprocessing.py line 36), where
`pd.isna` returns a multi-element boolean array whose truth value raises
`ValueError`, instead of the claimed identity-after-trim. -/
theorem claim_C8_judge_normalization :
    normalize_judges (.str "A, B and C") = .ok ["A", "B", "C"]
    ∧ normalize_judges .none = .ok []
    ∧ normalize_judges (.str "") = .ok []
    ∧ normalize_judges (.list [" A "]) = .ok ["A"]
    ∧ normalize_judges (.list ["A ", " B"]) = .error .ambiguousTruth := by decide

/-- Claim C6 (counterexample): the claim says the query `"X.pdf"`
resolves against a shard file list containing only `"2021/X_EN.pdf"`; in
fact none of the six candidate names generated for `"X.pdf"`
(`is_file_in_list`, aws_utils.py lines 82-98) equals `"2021/X_EN.pdf"`,
so the shard is not found. -/
theorem claim_C6_counterexample :
    locateInIndex idxC6 2021 "X.pdf" = .ok Option.none := by decide

/-- Claim C6 (amended): for year 2021 and a shard whose file list
contains only `"2021/X_EN.pdf"`, the queries `"X"` and `"X_EN.pdf"`
resolve to that shard, while `"X.pdf"` yields NotFound — the fallback
chain appends `".pdf"` / `"_EN.pdf"` and prefixes the year but never
rewrites an existing `.pdf` extension into `_EN.pdf`. -/
theorem claim_C6_suffix_tolerance :
    locateInIndex idxC6 2021 "X" = .ok (some "data.tar")
    ∧ locateInIndex idxC6 2021 "X_EN.pdf" = .ok (some "data.tar")
    ∧ locateInIndex idxC6 2021 "X.pdf" = .ok Option.none := by decide

/-- Claim C7 (counterexample): for the content mapping the single shard
named `"parts"` to `["2021/X.pdf"]`, the V2 rendering resolves `"X"` to
that shard, but the V1 rendering — a flat dict whose only key is
`"parts"` — is misdetected as schema V2 (`"parts" in index`,
aws_utils.py line 101), and iterating its string file entries as shard
descriptors raises AttributeError on `part.get("name")`.  The two
payloads therefore do not return the same result. -/
theorem claim_C7_counterexample :
    locateInIndex (some (v1Payload [("parts", ["2021/X.pdf"])])) 2021 "X"
        = .error .attributeError
    ∧ locateInIndex (some (v2Payload [("parts", ["2021/X.pdf"])])) 2021 "X"
        = .ok (some "parts") := by decide

/-- Claim C2 (counterexample): the claim says a cold-path build with one
or more failed years still returns, without raising, the union of the
successfully fetched years.  With every year's fetch failing the build
returns NotFound (`None`) rather than an empty union; and with 1950
failing while 2021 succeeds with a two-judge list cell, the judge
normalization of the successful year raises (the C8 bug), aborting the
whole build. -/
theorem claim_C2_counterexample :
    getProcessedFullDataset Option.none metaBadJudge supportedYears
        = .error .ambiguousTruth
    ∧ metaBadJudge 1950 = Option.none
    ∧ (metaBadJudge 2021).isSome = true
    ∧ getProcessedFullDataset Option.none metaNone supportedYears = .ok Option.none := by
  decide

/-- Claim C4 (counterexample): the claim quantifies over every case_id
containing an embedded in-range 4-digit year token.  `"1900 2020 INSC
1"` contains the in-range token 2020, but `re.search` returns the
leftmost `(19|20)dd` token — 1900, out of range — and the code never
looks further (aws_utils.py lines 164-168), so the candidate list stays
`[caller year]`: year 2020 is not tried at all, and a case present only
in the 2020 metadata is not found. -/
theorem claim_C4_counterexample :
    (2020 : Int) ∈ yearTokens "1900 2020 INSC 1"
    ∧ ((1950 : Int) ≤ 2020 ∧ (2020 : Int) ≤ 2025)
    ∧ yearsToTry 2021 "1900 2020 INSC 1" = [2021]
    ∧ getCaseMetadata metaC4 2021 "1900 2020 INSC 1" = .ok Option.none := by decide

/-- Claim C4 (amended): only the leftmost word-delimited `(19|20)dd`
token of the case_id is considered; when it parses to a year in
[1950, 2025] it becomes the first candidate (ahead of the caller's year)
unless it equals the caller's year, in which case the candidate list is
just the caller's year.  Tokens after the first are never examined. -/
theorem claim_C4_leftmost_token (year t : Int) (cid : String)
    (h : firstYearToken cid = some t) (h1 : 1950 ≤ t) (h2 : t ≤ 2025) :
    yearsToTry year cid = if t = year then [year] else [t, year] := by
  unfold yearsToTry
  rw [h]
  by_cases hty : t = year
  · simp [hty]
  · simp [hty, h1, h2]

/-- Witness for claim C4 (amended) at `"2025 INSC 1401"` with caller
year 2020. -/
theorem claim_C4_leftmost_token_witness :
    firstYearToken "2025 INSC 1401" = some 2025
    ∧ (1950 : Int) ≤ 2025 ∧ (2025 : Int) ≤ 2025
    ∧ yearsToTry 2020 "2025 INSC 1401"
        = if (2025 : Int) = 2020 then [2020] else [2025, 2020] :=
  ⟨by decide, by decide, by decide,
    claim_C4_leftmost_token 2020 2025 "2025 INSC 1401" (by decide) (by decide) (by decide)⟩

theorem resolveOver_first_match (meta : Int → Option Table) (cid : String) :
    ∀ (ys : List Int) (r : Row) (t : Int),
      resolveOver meta cid ys = .ok (some (r, t)) →
      ∃ l1 l2 tb ms, ys = l1 ++ t :: l2
        ∧ (∀ y, y ∈ l1 → noMatchAt meta cid y)
        ∧ meta t = some tb
        ∧ tb.cols.contains "case_id" = true
        ∧ findMatches cid tb = .ok (r :: ms) := by
  intro ys
  induction ys with
  | nil => intro r t h; simp [resolveOver] at h
  | cons y ys ih =>
    intro r t h
    unfold resolveOver at h
    split at h
    · rename_i hm
      obtain ⟨l1, l2, tb, ms, hys, hall, hmt, hcol, hfind⟩ := ih r t h
      refine ⟨y :: l1, l2, tb, ms, by simp [hys], ?_, hmt, hcol, hfind⟩
      intro z hz
      rcases List.mem_cons.mp hz with hz | hz
      · exact hz ▸ Or.inl hm
      · exact hall z hz
    · rename_i tb0 hm
      split at h
      · rename_i hc
        have hc2 : tb0.cols.contains "case_id" = false := by simpa using hc
        obtain ⟨l1, l2, tb, ms, hys, hall, hmt, hcol, hfind⟩ := ih r t h
        refine ⟨y :: l1, l2, tb, ms, by simp [hys], ?_, hmt, hcol, hfind⟩
        intro z hz
        rcases List.mem_cons.mp hz with hz | hz
        · exact hz ▸ Or.inr ⟨tb0, hm, Or.inl hc2⟩
        · exact hall z hz
      · rename_i hc
        have hc2 : tb0.cols.contains "case_id" = true := by simpa using hc
        split at h
        · cases h
        · rename_i hf
          obtain ⟨l1, l2, tb, ms, hys, hall, hmt, hcol, hfind⟩ := ih r t h
          refine ⟨y :: l1, l2, tb, ms, by simp [hys], ?_, hmt, hcol, hfind⟩
          intro z hz
          rcases List.mem_cons.mp hz with hz | hz
          · exact hz ▸ Or.inr ⟨tb0, hm, Or.inr hf⟩
          · exact hall z hz
        · rename_i r0 ms0 hf
          have h2 : (r0, y) = (r, t) := Option.some.inj (Except.ok.inj h)
          have hr0 : r0 = r := congrArg Prod.fst h2
          have hyt : y = t := congrArg Prod.snd h2
          subst hr0; subst hyt
          exact ⟨[], ys, tb0, ms0, rfl, fun z hz => absurd hz (List.not_mem_nil z), hm, hc2, hf⟩

theorem except_bind_ok {ε α β : Type} {x : Except ε α} {f : α → Except ε β} {b : β}
    (h : (x >>= f) = .ok b) : ∃ a, x = .ok a ∧ f a = .ok b := by
  cases x with
  | error e => simp [Bind.bind, Except.bind] at h
  | ok a => exact ⟨a, rfl, by simpa [Bind.bind, Except.bind] using h⟩

theorem projectRow_year (r : Row) (t : Int) (rec : CaseRecord)
    (h : projectRow r t = .ok rec) : rec.year = t := by
  unfold projectRow at h
  obtain ⟨a1, -, h⟩ := except_bind_ok h
  obtain ⟨a2, -, h⟩ := except_bind_ok h
  obtain ⟨a3, -, h⟩ := except_bind_ok h
  obtain ⟨a4, -, h⟩ := except_bind_ok h
  obtain ⟨a5, -, h⟩ := except_bind_ok h
  obtain ⟨a6, -, h⟩ := except_bind_ok h
  simp only [pure, Except.pure, Except.ok.injEq] at h
  rw [← h]

/-- Claim C5: whenever the resolver succeeds, the record's `year` field is
the candidate year under which the match was actually found — the first
candidate in `yearsToTry` producing a non-empty match, every earlier
candidate having been skipped (no metadata, no `case_id` column, or all
matching stages empty). -/
theorem claim_C5_match_year (meta : Int → Option Table) (year : Int) (case_id : String)
    (rec : CaseRecord)
    (h : getCaseMetadata meta year case_id = .ok (some rec)) :
    ∃ l1 t l2 tb r ms,
      yearsToTry year (pyStrip case_id) = l1 ++ t :: l2
      ∧ (∀ y, y ∈ l1 → noMatchAt meta (pyStrip case_id) y)
      ∧ meta t = some tb
      ∧ tb.cols.contains "case_id" = true
      ∧ findMatches (pyStrip case_id) tb = .ok (r :: ms)
      ∧ projectRow r t = .ok rec
      ∧ rec.year = t := by
  unfold getCaseMetadata at h
  by_cases hcid : pyStrip case_id = ""
  · rw [if_pos hcid] at h; cases h
  · rw [if_neg hcid] at h
    split at h
    · cases h
    · simp at h
    · rename_i r t hres
      split at h
      · cases h
      · rename_i rec0 hproj
        have hrec : rec0 = rec := Option.some.inj (Except.ok.inj h)
        subst hrec
        obtain ⟨l1, l2, tb, ms, hys, hall, hmt, hcol, hfind⟩ :=
          resolveOver_first_match meta (pyStrip case_id) (yearsToTry year (pyStrip case_id)) r t hres
        exact ⟨l1, t, l2, tb, r, ms, hys, hall, hmt, hcol, hfind, hproj,
          projectRow_year r t rec0 hproj⟩

/-- Witness for claim C5: `resolve(year=2020, case_id="2025 INSC 1401")`
against an environment whose 2025 metadata holds the case — the extracted
year 2025 is tried first, matches, and the returned record carries
`year = 2025`, not the caller's 2020. -/
theorem claim_C5_match_year_witness :
    getCaseMetadata metaTwo 2020 "2025 INSC 1401" = .ok (some recFive)
    ∧ recFive.year = 2025
    ∧ (∃ l1 t l2 tb r ms,
        yearsToTry 2020 (pyStrip "2025 INSC 1401") = l1 ++ t :: l2
        ∧ (∀ y, y ∈ l1 → noMatchAt metaTwo (pyStrip "2025 INSC 1401") y)
        ∧ metaTwo t = some tb
        ∧ tb.cols.contains "case_id" = true
        ∧ findMatches (pyStrip "2025 INSC 1401") tb = .ok (r :: ms)
        ∧ projectRow r t = .ok recFive
        ∧ recFive.year = t) :=
  ⟨by decide, by decide,
    claim_C5_match_year metaTwo 2020 "2025 INSC 1401" recFive (by decide)⟩

theorem lookupJson_parts_none (c : IndexContent) (h : "parts" ∉ c.map Prod.fst) :
    lookupJson (c.map (fun p => (p.1, Json.arr (p.2.map .str)))) "parts" = Option.none := by
  induction c with
  | nil => rfl
  | cons p c ih =>
    have hp : ¬(p.1 = "parts") := fun he => h (by simp [he])
    have hmem : "parts" ∉ c.map Prod.fst := fun hm => h (List.mem_cons_of_mem _ hm)
    unfold lookupJson
    rw [List.map_cons, List.find?_cons]
    have hb : ((p.1, Json.arr (p.2.map Json.str)).1 == "parts") = false := by
      simp only [beq_eq_false_iff_ne, ne_eq]
      exact hp
    rw [hb]
    exact ih hmem

theorem v1v2_loop_eq (year : Int) (fname : String) :
    ∀ c : IndexContent,
      v1Loop year fname (c.map (fun p => (p.1, Json.arr (p.2.map .str))))
        = v2Loop year fname (c.map (fun p =>
            Json.obj [("name", Json.str p.1), ("files", Json.arr (p.2.map .str))])) := by
  intro c
  induction c with
  | nil => rfl
  | cons p c ih =>
    simp only [List.map_cons]
    cases hb : fileInArr year fname (p.2.map Json.str) with
    | true =>
      simp [v1Loop, v2Loop, lookupJson, List.find?, isFileInJson, nameOf, hb]
    | false =>
      simp [v1Loop, v2Loop, lookupJson, List.find?, isFileInJson, nameOf, hb]
      exact ih

/-- Claim C7 (amended): a V1 payload and the corresponding V2 payload
(same shards, same order) give `locate_shard` the same result for every
(year, filename) query, provided no shard is literally named `"parts"` —
a V1 mapping with a `"parts"` key is misdetected as schema V2 (see the
counterexample). -/
theorem claim_C7_v1_v2_equivalence (c : IndexContent) (year : Int) (fname : String)
    (h : "parts" ∉ c.map Prod.fst) :
    locateInIndex (some (v1Payload c)) year fname
      = locateInIndex (some (v2Payload c)) year fname := by
  cases c with
  | nil => rfl
  | cons p c2 =>
    have hl := lookupJson_parts_none (p :: c2) h
    have hloop := v1v2_loop_eq year fname (p :: c2)
    simp only [locateInIndex, v1Payload, v2Payload] at *
    rw [hl] at *
    simpa using hloop

/-- Witness for claim C7 (amended) on a one-shard content. -/
theorem claim_C7_v1_v2_equivalence_witness :
    ("parts" ∉ ([("data.tar", ["2021/X.pdf"])] : IndexContent).map Prod.fst)
    ∧ locateInIndex (some (v1Payload [("data.tar", ["2021/X.pdf"])])) 2021 "X"
        = locateInIndex (some (v2Payload [("data.tar", ["2021/X.pdf"])])) 2021 "X" :=
  ⟨by decide, claim_C7_v1_v2_equivalence [("data.tar", ["2021/X.pdf"])] 2021 "X" (by decide)⟩

theorem extractLoop_none (fname : String) :
    ∀ members : List TarMember,
      (∀ m, m ∈ members → memberMatches fname m.name = false) →
      extractLoop fname members = Option.none := by
  intro members
  induction members with
  | nil => intro _; rfl
  | cons m ms ih =>
    intro h
    have hm := h m (List.mem_cons_self m ms)
    simp only [extractLoop, hm, Bool.false_eq_true, if_false]
    exact ih (fun x hx => h x (List.mem_cons_of_mem m hx))

/-- Claim C9: when a path is supplied, the shard is located and
downloads to a parseable archive, but no member name matches the target
filename under any accepted variant, the full member list is scanned and
the call returns NotFound (`ok None`) — no exception. -/
theorem claim_C9_unmatched_members_notfound (env : Env) (year : Int)
    (cid lang p fname tar : String) (bytes : List Nat) (members : List TarMember)
    (hp : p ≠ "")
    (hf : lastSeg p = fname)
    (hloc : locateInIndex (env.index year lang) year fname = .ok (some tar))
    (htar : tar ≠ "")
    (hdl : env.download year lang tar = some bytes)
    (hb : bytes ≠ [])
    (hpt : env.parseTar bytes = some members)
    (hmm : ∀ m, m ∈ members → memberMatches fname m.name = false) :
    fetchPdfForCase env year cid lang (some p) = .ok Option.none := by
  have hbe : bytes.isEmpty = false := by
    cases bytes with
    | nil => exact absurd rfl hb
    | cons a l => rfl
  have hel := extractLoop_none fname members hmm
  unfold fetchPdfForCase
  simp only [if_neg hp, hf, hloc, if_neg htar, hdl, hbe, hpt, hel, Bool.false_eq_true,
    if_false]

/-- Witness for claim C9 on a concrete environment: the shard
`data.tar` is located for `report_EN.pdf` and downloaded, no member
matches, and the fetch returns `ok None`. -/
theorem claim_C9_unmatched_members_notfound_witness :
    (∀ m, m ∈ membersNine → memberMatches "report_EN.pdf" m.name = false)
    ∧ fetchPdfForCase envNine 2021 "x" "english" (some "2021/report_EN.pdf")
        = .ok Option.none :=
  ⟨by decide,
    claim_C9_unmatched_members_notfound envNine 2021 "x" "english" "2021/report_EN.pdf"
      "report_EN.pdf" "data.tar" [7, 7, 7] membersNine (by decide) (by decide) (by decide)
      (by decide) (by decide) (by decide) (by decide) (by decide)⟩

/-- Claim C10: the archive-index lookup and the shard download of
`fetch_pdf_for_case` and `get_pdf_url` depend on the remote world only
through the caller-supplied year — two environments agreeing on metadata
and on index/download at that year (but arbitrary elsewhere, in
particular at the year the resolver matched under) produce identical
results; and every URL `get_pdf_url` returns is the caller-year shard
URL. -/
theorem claim_C10_caller_year_only (envA envB : Env) (year : Int) (cid lang : String)
    (p : Option String)
    (hm : envA.meta = envB.meta)
    (hi : ∀ l, envA.index year l = envB.index year l)
    (hd : ∀ l t, envA.download year l t = envB.download year l t)
    (hpt : envA.parseTar = envB.parseTar) :
    fetchPdfForCase envA year cid lang p = fetchPdfForCase envB year cid lang p
    ∧ getPdfUrl envA year cid lang = getPdfUrl envB year cid lang
    ∧ (∀ url, getPdfUrl envA year cid lang = .ok (some url) →
        ∃ tar, url = tarUrl year lang tar) := by
  have hi2 : envA.index year = envB.index year := funext hi
  have hd2 : envA.download year = envB.download year := funext (fun l => funext (hd l))
  refine ⟨?_, ?_, ?_⟩
  · unfold fetchPdfForCase
    rw [hm, hi2, hd2, hpt]
  · unfold getPdfUrl
    rw [hm, hi2]
  · intro url h
    unfold getPdfUrl at h
    split at h
    · cases h
    · simp at h
    · rename_i rec hrec
      split at h
      · cases h
      · simp at h
      · rename_i fname hpath
        split at h
        · cases h
        · rename_i tar hloc
          split at h
          · simp at h
          · exact ⟨tar, (Option.some.inj (Except.ok.inj h)).symm⟩
        · simp at h

/-- Witness for claim C10: `envNine` and `envTen` differ in the archive
index of 1999 but agree at the caller year 2021; the resolver matches the
case under the embedded year 2025 (not the caller's 2021), yet both fetch
and URL construction are unchanged. -/
theorem claim_C10_caller_year_only_witness :
    (envNine.index 1999 "english").isSome = false
    ∧ (envTen.index 1999 "english").isSome = true
    ∧ recYear (getCaseMetadata envNine.meta 2021 "2025 INSC 1401") = some 2025
    ∧ fetchPdfForCase envNine 2021 "2025 INSC 1401" "english" Option.none
        = fetchPdfForCase envTen 2021 "2025 INSC 1401" "english" Option.none
    ∧ getPdfUrl envNine 2021 "2025 INSC 1401" "english"
        = getPdfUrl envTen 2021 "2025 INSC 1401" "english" :=
  ⟨by decide, by decide, by decide,
    (claim_C10_caller_year_only envNine envTen 2021 "2025 INSC 1401" "english" Option.none
      rfl (fun l => by simp only [envTen]; rw [if_neg (by decide : ¬((2021 : Int) = 1999))])
      (fun l t => rfl) rfl).1,
    (claim_C10_caller_year_only envNine envTen 2021 "2025 INSC 1401" "english" Option.none
      rfl (fun l => by simp only [envTen]; rw [if_neg (by decide : ¬((2021 : Int) = 1999))])
      (fun l t => rfl) rfl).2.1⟩

theorem lookupCell_filter_ne (k k2 : String) (h : ¬(k2 = k)) :
    ∀ r : Row, lookupCell (r.filter (fun p => !(p.1 == k))) k2 = lookupCell r k2 := by
  intro r
  induction r with
  | nil => rfl
  | cons p r ih =>
    by_cases hp : p.1 = k
    · have h1 : (!(p.1 == k)) = false := by simp [hp]
      have h2 : (p.1 == k2) = false := by
        simp only [beq_eq_false_iff_ne, ne_eq, hp]
        exact fun he => h he.symm
      rw [List.filter_cons]
      rw [h1]
      simp only [if_false, Bool.false_eq_true]
      rw [ih]
      unfold lookupCell
      rw [List.find?_cons, h2]
    · have h1 : (!(p.1 == k)) = true := by simp [hp]
      rw [List.filter_cons, h1]
      simp only [if_true]
      unfold lookupCell
      rw [List.find?_cons, List.find?_cons]
      cases hb : (p.1 == k2) with
      | true => rfl
      | false => exact ih

theorem lookupCell_setCell_same (k : String) (v : Cell) (r : Row) :
    lookupCell (setCell k v r) k = some v := by
  simp [setCell, lookupCell, List.find?_cons]

theorem lookupCell_setCell_ne (k k2 : String) (v : Cell) (r : Row) (h : ¬(k2 = k)) :
    lookupCell (setCell k v r) k2 = lookupCell r k2 := by
  have hb : ((k, v).1 == k2) = false := by
    simp only [beq_eq_false_iff_ne, ne_eq]
    exact fun he => h he.symm
  unfold setCell lookupCell
  rw [List.find?_cons, hb]
  exact lookupCell_filter_ne k k2 h r

theorem cellD_setCell_same (k : String) (v : Cell) (r : Row) :
    cellD (setCell k v r) k = v := by
  simp [cellD, getCellOr, lookupCell_setCell_same]

theorem cellD_setCell_ne (k k2 : String) (v : Cell) (r : Row) (h : ¬(k2 = k)) :
    cellD (setCell k v r) k2 = cellD r k2 := by
  simp [cellD, getCellOr, lookupCell_setCell_ne k k2 v r h]

theorem exceptMapM_forall2 {α β : Type} (f : α → Except PyErr β) :
    ∀ (l : List α) (bs : List β), exceptMapM f l = .ok bs →
      List.Forall₂ (fun a b => f a = .ok b) l bs := by
  intro l
  induction l with
  | nil =>
    intro bs h
    cases Except.ok.inj h
    exact List.Forall₂.nil
  | cons a l ih =>
    intro bs h
    unfold exceptMapM at h
    cases hfa : f a with
    | error e => rw [hfa] at h; cases h
    | ok b =>
      rw [hfa] at h
      cases hrec : exceptMapM f l with
      | error e => rw [hrec] at h; cases h
      | ok bs2 =>
        rw [hrec] at h
        cases Except.ok.inj h
        exact List.Forall₂.cons hfa (ih bs2 hrec)

theorem exceptMapM_ok_of_all {α β : Type} (f : α → Except PyErr β) :
    ∀ l : List α, (∀ a, a ∈ l → isOkB (f a) = true) →
      ∃ bs, exceptMapM f l = .ok bs := by
  intro l
  induction l with
  | nil => intro _; exact ⟨[], rfl⟩
  | cons a l ih =>
    intro h
    have ha := h a (List.mem_cons_self a l)
    cases hfa : f a with
    | error e => rw [hfa] at ha; cases ha
    | ok b =>
      obtain ⟨bs, hmap⟩ := ih (fun x hx => h x (List.mem_cons_of_mem a hx))
      refine ⟨b :: bs, ?_⟩
      unfold exceptMapM
      rw [hfa, hmap]

theorem forall2_mem_right {α β : Type} {R : α → β → Prop} :
    ∀ {l : List α} {bs : List β}, List.Forall₂ R l bs →
      ∀ b, b ∈ bs → ∃ a, a ∈ l ∧ R a b := by
  intro l bs h
  induction h with
  | nil => intro b hb; cases hb
  | cons hR hrest ih =>
    intro b hb
    rcases List.mem_cons.mp hb with hb | hb
    · exact ⟨_, List.mem_cons_self _ _, hb ▸ hR⟩
    · obtain ⟨a, ha, haR⟩ := ih b hb
      exact ⟨a, List.mem_cons_of_mem _ ha, haR⟩

theorem updateJudge_shape (r0 r1 : Row) (h : updateJudge r0 = .ok r1) :
    ∃ v, r1 = setCell "judge" (.list v) r0 := by
  unfold updateJudge at h
  obtain ⟨v, hv, h2⟩ := except_bind_ok h
  simp only [pure, Except.pure, Except.ok.injEq] at h2
  exact ⟨v, h2.symm⟩

theorem citStep_year (r : Row) : cellD (citStep r) "year" = cellD r "year" :=
  cellD_setCell_ne _ _ _ _ (by decide)

theorem titleStep_year (r : Row) : cellD (titleStep r) "year" = cellD r "year" := by
  unfold titleStep
  rw [cellD_setCell_ne _ _ _ _ (by decide), cellD_setCell_ne _ _ _ _ (by decide)]

theorem titleStep_title (r : Row) : cellD (titleStep r) "title" = cellD r "title" := by
  unfold titleStep
  rw [cellD_setCell_ne _ _ _ _ (by decide), cellD_setCell_ne _ _ _ _ (by decide)]

theorem titleStep_petitioner (r : Row) :
    lookupCell (titleStep r) "petitioner"
      = some (.str (extract_petitioner_respondent (cellD (titleStep r) "title")).1) := by
  rw [titleStep_title]
  unfold titleStep
  rw [lookupCell_setCell_ne _ _ _ _ (by decide), lookupCell_setCell_same]

theorem titleStep_respondent (r : Row) :
    lookupCell (titleStep r) "respondent"
      = some (.str (extract_petitioner_respondent (cellD (titleStep r) "title")).2) := by
  rw [titleStep_title]
  unfold titleStep
  rw [lookupCell_setCell_same]

theorem stage1_year (y : Int) (t : Table) (rows1 : List Row)
    (h : stage1 y t = .ok rows1) :
    ∀ r, r ∈ rows1 → cellD r "year" = Cell.int y := by
  intro r hr
  by_cases hj : t.cols.contains "judge" = true
  · simp only [stage1, hj, if_true] at h
    have hf2 := exceptMapM_forall2 updateJudge _ rows1 h
    obtain ⟨r0, hr0, hu⟩ := forall2_mem_right hf2 r hr
    obtain ⟨r00, hr00, hre⟩ := List.mem_map.mp hr0
    obtain ⟨v, hv⟩ := updateJudge_shape r0 r hu
    rw [hv, cellD_setCell_ne _ _ _ _ (by decide), ← hre, cellD_setCell_same]
  · simp only [stage1, hj, if_false, Bool.false_eq_true] at h
    have h2 := Except.ok.inj h
    subst h2
    obtain ⟨r00, hr00, hre⟩ := List.mem_map.mp hr
    rw [← hre, cellD_setCell_same]

/-- Every row produced by `processTable y t` carries the year tag `y`,
and — when the source table has a title column — petitioner and
respondent cells derived from its own title cell by
`extract_petitioner_respondent`. -/
theorem processTable_rows (y : Int) (t : Table) (rowsY : List Row)
    (h : processTable y t = .ok rowsY) :
    ∀ r, r ∈ rowsY →
      cellD r "year" = Cell.int y
      ∧ (t.cols.contains "title" = true →
          lookupCell r "petitioner"
            = some (.str (extract_petitioner_respondent (cellD r "title")).1)
          ∧ lookupCell r "respondent"
            = some (.str (extract_petitioner_respondent (cellD r "title")).2)) := by
  unfold processTable at h
  split at h
  · cases h
  rename_i rows1 h1
  have hy1 := stage1_year y t rows1 h1
  have h2 := Except.ok.inj h
  intro r hr
  rw [← h2] at hr
  by_cases hti : t.cols.contains "title" = true
  · rw [if_pos hti] at hr
    obtain ⟨r2, hr2, hre⟩ := List.mem_map.mp hr
    have hy2 : cellD r2 "year" = Cell.int y := by
      by_cases hci : t.cols.contains "citation" = true
      · rw [if_pos hci] at hr2
        obtain ⟨r1, hr1, hre1⟩ := List.mem_map.mp hr2
        rw [← hre1, citStep_year]
        exact hy1 r1 hr1
      · rw [if_neg hci] at hr2
        exact hy1 r2 hr2
    subst hre
    refine ⟨by rw [titleStep_year]; exact hy2, fun _ => ⟨?_, ?_⟩⟩
    · exact titleStep_petitioner r2
    · exact titleStep_respondent r2
  · rw [if_neg hti] at hr
    refine ⟨?_, fun hcon => absurd hcon hti⟩
    by_cases hci : t.cols.contains "citation" = true
    · rw [if_pos hci] at hr
      obtain ⟨r1, hr1, hre1⟩ := List.mem_map.mp hr
      rw [← hre1, citStep_year]
      exact hy1 r1 hr1
    · rw [if_neg hci] at hr
      exact hy1 r hr

theorem rowsOfYear_flatten_nil (y : Int) :
    ∀ (pairs : List (Int × Table)) (blocks : List (List Row)),
      List.Forall₂ (fun p b => processTable p.1 p.2 = .ok b) pairs blocks →
      y ∉ pairs.map Prod.fst →
      rowsOfYear y blocks.flatten = [] := by
  intro pairs blocks h
  induction h with
  | nil => intro _; rfl
  | @cons p b ps bs hR hrest ih =>
    intro hy
    have hyp : ¬(p.1 = y) := by
      intro he
      exact hy (by rw [← he]; exact List.mem_cons_self _ _)
    have hy2 : y ∉ ps.map Prod.fst := fun hm => hy (List.mem_cons_of_mem _ hm)
    rw [List.flatten_cons]
    unfold rowsOfYear
    rw [List.filter_append]
    have hb : b.filter (fun r => cellD r "year" == Cell.int y) = [] := by
      rw [List.filter_eq_nil_iff]
      intro r hr
      have hyr := (processTable_rows p.1 p.2 b hR r hr).1
      simp [hyr, hyp]
    rw [hb]
    have := ih hy2
    unfold rowsOfYear at this
    simpa using this

theorem rowsOfYear_flatten_found (y : Int) (t0 : Table) (rowsY : List Row)
    (hpt : processTable y t0 = .ok rowsY) :
    ∀ (pairs : List (Int × Table)) (blocks : List (List Row)),
      List.Forall₂ (fun p b => processTable p.1 p.2 = .ok b) pairs blocks →
      (pairs.map Prod.fst).Nodup →
      (y, t0) ∈ pairs →
      rowsOfYear y blocks.flatten = rowsY := by
  intro pairs blocks h
  induction h with
  | nil => intro _ hmem; cases hmem
  | @cons p b ps bs hR hrest ih =>
    intro hnd hmem
    rw [List.flatten_cons]
    unfold rowsOfYear
    rw [List.filter_append]
    rw [List.map_cons] at hnd
    rcases List.mem_cons.mp hmem with hmem | hmem
    · have hp1 : p.1 = y := by rw [← hmem]
      have hb : b = rowsY := by
        rw [← hmem] at hR
        exact Except.ok.inj (hR.symm.trans hpt)
      have hfb : b.filter (fun r => cellD r "year" == Cell.int y) = b := by
        rw [List.filter_eq_self]
        intro r hr
        have hyr := (processTable_rows p.1 p.2 b hR r hr).1
        rw [hp1] at hyr
        simp [hyr]
      have hynotin : y ∉ ps.map Prod.fst := by
        have hh := (List.nodup_cons.mp hnd).1
        rw [hp1] at hh
        exact hh
      have htail := rowsOfYear_flatten_nil y ps bs hrest hynotin
      unfold rowsOfYear at htail
      rw [hfb, htail, List.append_nil]
      exact hb
    · have hyin : y ∈ ps.map Prod.fst := List.mem_map.mpr ⟨(y, t0), hmem, rfl⟩
      have hp1 : ¬(p.1 = y) := by
        intro he
        exact (List.nodup_cons.mp hnd).1 (he ▸ hyin)
      have hfb : b.filter (fun r => cellD r "year" == Cell.int y) = [] := by
        rw [List.filter_eq_nil_iff]
        intro r hr
        have hyr := (processTable_rows p.1 p.2 b hR r hr).1
        simp [hyr, hp1]
      rw [hfb]
      have htail := ih (List.nodup_cons.mp hnd).2 hmem
      unfold rowsOfYear at htail
      simpa using htail

theorem allYears_fst_sublist (meta : Int → Option Table) :
    ∀ order : List Int, ((allYearsMetadata meta order).map Prod.fst).Sublist order := by
  intro order
  induction order with
  | nil => simp [allYearsMetadata]
  | cons y ys ih =>
    unfold allYearsMetadata at *
    rw [List.filterMap_cons]
    cases hm : meta y with
    | none => simpa [hm] using ih.cons y
    | some t => simpa [hm] using ih.cons₂ y

theorem allYears_mem (meta : Int → Option Table) (order : List Int) (y : Int) (t : Table)
    (hy : y ∈ order) (hm : meta y = some t) : (y, t) ∈ allYearsMetadata meta order :=
  List.mem_filterMap.mpr ⟨y, hy, by rw [hm]; rfl⟩

theorem allYears_mem_inv (meta : Int → Option Table) (order : List Int) (p : Int × Table)
    (hp : p ∈ allYearsMetadata meta order) : p.1 ∈ order ∧ meta p.1 = some p.2 := by
  obtain ⟨a, ha, hfa⟩ := List.mem_filterMap.mp hp
  cases hma : meta a with
  | none => rw [hma] at hfa; cases hfa
  | some t =>
    rw [hma] at hfa
    have hpa : (a, t) = p := Option.some.inj hfa
    rw [← hpa]
    exact ⟨ha, hma⟩

theorem supportedYears_nodup : supportedYears.Nodup := by decide

/-- Claim C2 (amended): on the cold path, provided at least one year's
fetch succeeds and each fetched year's rows normalize without raising
(cf. the C8 judge-normalization bug), the build returns — for every
completion order of the worker pool — a dataset in which the rows tagged
with a year are exactly that year's processed rows when its fetch
succeeded, and no rows at all for failed or unsupported years (failed
years are omitted, no year is duplicated). -/
theorem claim_C2_partial_failure_union (meta : Int → Option Table) (order : List Int)
    (hperm : order.Perm supportedYears)
    (hsome : supportedYears.any (fun y => (meta y).isSome) = true)
    (hok : (allYearsMetadata meta order).all (fun p => isOkB (processTable p.1 p.2)) = true) :
    ∃ rows, getProcessedFullDataset Option.none meta order = .ok (some rows)
      ∧ (∀ y t rowsY, meta y = some t → y ∈ supportedYears → processTable y t = .ok rowsY →
          rowsOfYear y rows = rowsY)
      ∧ (∀ y, meta y = Option.none ∨ y ∉ supportedYears → rowsOfYear y rows = [])
      ∧ (∀ r, r ∈ rows → ∃ y, y ∈ supportedYears ∧ cellD r "year" = Cell.int y) := by
  obtain ⟨y0, hy0mem, hy0s⟩ := List.any_eq_true.mp hsome
  obtain ⟨t0, ht0⟩ := Option.isSome_iff_exists.mp hy0s
  have hy0order : y0 ∈ order := hperm.mem_iff.mpr hy0mem
  have hpair0 : (y0, t0) ∈ allYearsMetadata meta order :=
    allYears_mem meta order y0 t0 hy0order ht0
  have hallok : ∀ p, p ∈ allYearsMetadata meta order →
      isOkB ((fun p : Int × Table => processTable p.1 p.2) p) = true := by
    intro p hp
    exact List.all_eq_true.mp hok p hp
  obtain ⟨blocks, hmap⟩ := exceptMapM_ok_of_all _ _ hallok
  have hf2 := exceptMapM_forall2 _ _ blocks hmap
  have hne : (allYearsMetadata meta order).isEmpty = false := by
    cases hse : allYearsMetadata meta order with
    | nil => rw [hse] at hpair0; cases hpair0
    | cons a l => rfl
  have hnodup : ((allYearsMetadata meta order).map Prod.fst).Nodup := by
    have hsub := allYears_fst_sublist meta order
    have hordn : order.Nodup := (hperm.nodup_iff).mpr supportedYears_nodup
    exact hordn.sublist hsub
  refine ⟨blocks.flatten, ?_, ?_, ?_, ?_⟩
  · simp only [getProcessedFullDataset, coldBuild, hne, Bool.false_eq_true, if_false, hmap]
  · intro y t rowsY hmt hys hproc
    have hyo : y ∈ order := hperm.mem_iff.mpr hys
    exact rowsOfYear_flatten_found y t rowsY hproc _ blocks hf2 hnodup
      (allYears_mem meta order y t hyo hmt)
  · intro y hy
    have hnot : y ∉ (allYearsMetadata meta order).map Prod.fst := by
      intro hmem
      obtain ⟨p, hp, hfst⟩ := List.mem_map.mp hmem
      obtain ⟨hin, hmeta⟩ := allYears_mem_inv meta order p hp
      rcases hy with hy | hy
      · rw [hfst] at hmeta
        rw [hy] at hmeta
        cases hmeta
      · exact hy (hperm.mem_iff.mp (hfst ▸ hin))
    exact rowsOfYear_flatten_nil y _ blocks hf2 hnot
  · intro r hr
    obtain ⟨b, hb, hrb⟩ := List.mem_flatten.mp hr
    obtain ⟨p, hp, hR⟩ := forall2_mem_right hf2 b hb
    have hyr := (processTable_rows p.1 p.2 b hR r hrb).1
    have hin := (allYears_mem_inv meta order p hp).1
    exact ⟨p.1, hperm.mem_iff.mp hin, hyr⟩

/-- Witness for claim C2 (amended): only 2021 fetches successfully
(every other year, e.g. 1950, fails) and its single titled row
normalizes; the build succeeds with exactly that year's rows. -/
theorem claim_C2_partial_failure_union_witness :
    metaTitled 1950 = Option.none
    ∧ supportedYears.any (fun y => (metaTitled y).isSome) = true
    ∧ (allYearsMetadata metaTitled supportedYears).all
        (fun p => isOkB (processTable p.1 p.2)) = true
    ∧ (∃ rows, getProcessedFullDataset Option.none metaTitled supportedYears = .ok (some rows)
        ∧ (∀ y t rowsY, metaTitled y = some t → y ∈ supportedYears →
            processTable y t = .ok rowsY → rowsOfYear y rows = rowsY)
        ∧ (∀ y, metaTitled y = Option.none ∨ y ∉ supportedYears → rowsOfYear y rows = [])
        ∧ (∀ r, r ∈ rows → ∃ y, y ∈ supportedYears ∧ cellD r "year" = Cell.int y)) :=
  ⟨by decide, by decide, by decide,
    claim_C2_partial_failure_union metaTitled supportedYears (List.Perm.refl _)
      (by decide) (by decide)⟩

theorem forall2_mem_left {α β : Type} {R : α → β → Prop} :
    ∀ {l : List α} {bs : List β}, List.Forall₂ R l bs →
      ∀ a, a ∈ l → ∃ b, b ∈ bs ∧ R a b := by
  intro l bs h
  induction h with
  | nil => intro a ha; cases ha
  | cons hR hrest ih =>
    intro a ha
    rcases List.mem_cons.mp ha with ha | ha
    · exact ⟨_, List.mem_cons_self _ _, ha ▸ hR⟩
    · obtain ⟨b, hb, hbR⟩ := ih a ha
      exact ⟨b, List.mem_cons_of_mem _ hb, hbR⟩

/-- Claim C3 (spec-modelled normalizers): on the cold path, every
processed row of a source table that has a title column carries
petitioner and respondent cells obtained by applying
`extract_petitioner_respondent` to its own title cell (ordered separator
patterns, first match wins, groups trimmed of non-word characters and
title-cased); and a title matched by no pattern yields two empty
fields.  All processed rows of every fetched year appear in the combined
dataset. -/
theorem claim_C3_title_extraction (meta : Int → Option Table) (order : List Int)
    (rows : List Row)
    (h : getProcessedFullDataset Option.none meta order = .ok (some rows)) :
    (∀ y t rowsY, (y, t) ∈ allYearsMetadata meta order → processTable y t = .ok rowsY →
      (∀ r, r ∈ rowsY → r ∈ rows)
      ∧ (t.cols.contains "title" = true →
          ∀ r, r ∈ rowsY →
            lookupCell r "petitioner"
              = some (.str (extract_petitioner_respondent (cellD r "title")).1)
            ∧ lookupCell r "respondent"
              = some (.str (extract_petitioner_respondent (cellD r "title")).2)))
    ∧ (∀ s : String, findTitleSplit s = Option.none →
        extract_petitioner_respondent (.str s) = ("", "")) := by
  constructor
  · intro y t rowsY hpair hproc
    refine ⟨?_, fun hti r hr => (processTable_rows y t rowsY hproc r hr).2 hti⟩
    simp only [getProcessedFullDataset, coldBuild] at h
    split at h
    · simp at h
    · split at h
      · cases h
      · rename_i blocks hmap
        have hrows : blocks.flatten = rows := Option.some.inj (Except.ok.inj h)
        have hf2 := exceptMapM_forall2 _ _ blocks hmap
        obtain ⟨b, hbmem, hbR⟩ := forall2_mem_left hf2 (y, t) hpair
        have hbY : b = rowsY := Except.ok.inj (hbR.symm.trans hproc)
        intro r hr
        rw [← hrows]
        exact List.mem_flatten.mpr ⟨b, hbmem, hbY.symm ▸ hr⟩
  · intro s hs
    simp [extract_petitioner_respondent, hs]

/-- Witness for claim C3 on the single-year titled environment. -/
theorem claim_C3_title_extraction_witness :
    getProcessedFullDataset Option.none metaTitled supportedYears = .ok (some rowsTitled)
    ∧ ((∀ y t rowsY, (y, t) ∈ allYearsMetadata metaTitled supportedYears →
          processTable y t = .ok rowsY →
          (∀ r, r ∈ rowsY → r ∈ rowsTitled)
          ∧ (t.cols.contains "title" = true →
              ∀ r, r ∈ rowsY →
                lookupCell r "petitioner"
                  = some (.str (extract_petitioner_respondent (cellD r "title")).1)
                ∧ lookupCell r "respondent"
                  = some (.str (extract_petitioner_respondent (cellD r "title")).2)))
        ∧ (∀ s : String, findTitleSplit s = Option.none →
            extract_petitioner_respondent (.str s) = ("", ""))) :=
  ⟨by decide, claim_C3_title_extraction metaTitled supportedYears rowsTitled (by decide)⟩
